import Mathlib

/-!
Shallow embedding of the prize-draw core of `src/app.py`.

The Redis store is modelled as an explicit record of the draw's keys:
`is_open` (existence plus the optional expiry passed to SET), the sets
`prizes` and `entrants` (lists of unique member strings), the hash
`winners` (association list; an empty hash means the key is absent, as
in Redis), the cached derived view `winners_json`, and the profile
cache `profiles:<id>` (association list of identity, record and absolute
expiry instant; a later SET shadows earlier entries).

Randomness of SPOP is modelled by parametrising `draw_prizes` over the
order in which the two sets are drained; theorems quantify over every
order that is a permutation of the set. The external GitHub provider is
a function from identity to an optional profile, and wall-clock time is
an explicit `Nat` argument where the code relies on key expiry. Python
exceptions that escape a handler are modelled with `Except`.
-/

structure Profile where
  login : String
  name : Option String
  avatar_url : String
deriving DecidableEq

structure WinnerRecord where
  name : String
  prize : String
  image : String
deriving DecidableEq

structure Store where
  is_open : Bool
  is_open_ex : Option Nat
  prizes : List String
  entrants : List String
  winners : List (String × String)
  winners_json : Option (List WinnerRecord)
  profiles : List (String × Profile × Nat)
deriving DecidableEq

/-- The store before any draw was ever opened: every key absent. -/
def Store.empty : Store :=
  { is_open := false, is_open_ex := none, prizes := [], entrants := [],
    winners := [], winners_json := none, profiles := [] }

/-- The six draw phases of `PrizeDrawState` in `src/app.py`. -/
inductive PrizeDrawState
  | NO_DRAW
  | DRAW_OPEN_NO_ENTRANTS
  | DRAW_OPEN_WITH_ENTRANTS
  | DRAW_CLOSED_NO_ENTRANTS
  | DRAW_CLOSED_WITH_ENTRANTS
  | DRAW_WON
deriving DecidableEq

/-- The classifier body of `get_draw_state`, applied to the four pipelined
reads: EXISTS is_open, EXISTS winners, EXISTS prizes, SCARD entrants. -/
def get_draw_state_of (draw_open winners_exist prizes_exist : Bool)
    (num_entrants : Nat) : PrizeDrawState :=
  if draw_open = false ∧ winners_exist = false ∧ prizes_exist = false then
    .NO_DRAW
  else if draw_open = true then
    if num_entrants = 0 then .DRAW_OPEN_NO_ENTRANTS
    else .DRAW_OPEN_WITH_ENTRANTS
  else if draw_open = false ∧ winners_exist = false then
    if num_entrants = 0 then .DRAW_CLOSED_NO_ENTRANTS
    else .DRAW_CLOSED_WITH_ENTRANTS
  else
    .DRAW_WON

/-- `get_draw_state` on a store: the four reads, then the classifier.
A set or hash key exists in Redis iff it has at least one member. -/
def get_draw_state (s : Store) : PrizeDrawState :=
  get_draw_state_of s.is_open (!s.winners.isEmpty) (!s.prizes.isEmpty)
    s.entrants.length

/-- Modelled from the spec: the precedence table of §4.1, evaluated in its
fixed order — NoDraw when flag, winners and prizes are all absent; the two
Open states when the flag is present, split on entrant count; the two
Closed states when flag and winners are absent, split on entrant count;
Won for every remaining combination. -/
def spec_resolve (flag winners prizes : Bool) (entrants : Nat) : PrizeDrawState :=
  if flag = false ∧ winners = false ∧ prizes = false then
    .NO_DRAW
  else if flag = true then
    if entrants = 0 then .DRAW_OPEN_NO_ENTRANTS else .DRAW_OPEN_WITH_ENTRANTS
  else if winners = false then
    if entrants = 0 then .DRAW_CLOSED_NO_ENTRANTS else .DRAW_CLOSED_WITH_ENTRANTS
  else
    .DRAW_WON

/-- Redis GET on a `profiles:<id>` key at instant `t`: the most recent SET
for the identity wins, and an entry whose expiry has passed reads as nil. -/
def redis_get_profile (s : Store) (t : Nat) (github_id : String) : Option Profile :=
  match s.profiles.lookup github_id with
  | some (p, expiry) => if t < expiry then some p else none
  | none => none

/-- `get_github_profile`: cache hit returns the stored record; on a miss the
provider is consulted, a 200 response is cached with `ex = 3600` and
returned, any other response yields None and writes nothing. Returns
(result, store after the call, whether the provider was called). -/
def get_github_profile (s : Store) (t : Nat)
    (provider : String → Option Profile) (github_id : String) :
    Option Profile × Store × Bool :=
  match redis_get_profile s t github_id with
  | some p => (some p, s, false)
  | none =>
    match provider github_id with
    | some p =>
      (some p, { s with profiles := (github_id, p, t + 3600) :: s.profiles }, true)
    | none => (none, s, true)

/-- Redis SADD of one member: returns the new set and the reported delta
(1 when the member was added, 0 when it was already present). -/
def sadd (s : List String) (x : String) : List String × Nat :=
  if x ∈ s then (s, 0) else (s ++ [x], 1)

/-- SADD with several members, as `start_new_draw` issues for the prizes. -/
def sadd_many (s : List String) (xs : List String) : List String :=
  xs.foldl (fun acc x => (sadd acc x).1) s

/-- Outcome of `enter_prize_draw`: the three `abort` responses and success. -/
inductive EnterResult
  | http403_draw_not_open
  | http404_unknown_identity
  | http400_already_entered
  | entered (profile : Profile)
deriving DecidableEq

/-- `enter_prize_draw`: abort 403 when `is_open` is absent, lowercase the
identity, resolve the profile (404 when the provider has none), then SADD
into `entrants` and abort 400 when the reported delta is 0. Returns
(result, store after the call, whether the provider was called). -/
def enter_prize_draw (s : Store) (t : Nat)
    (provider : String → Option Profile) (github_id : String) :
    EnterResult × Store × Bool :=
  if s.is_open = false then
    (.http403_draw_not_open, s, false)
  else
    let lowercase_id := github_id.toLower
    let r := get_github_profile s t provider lowercase_id
    match r.1 with
    | none => (.http404_unknown_identity, r.2.1, r.2.2)
    | some profile =>
      let a := sadd r.2.1.entrants lowercase_id
      if a.2 = 0 then (.http400_already_entered, r.2.1, r.2.2)
      else (.entered profile, { r.2.1 with entrants := a.1 }, r.2.2)

/-- `start_new_draw`: a MULTI/EXEC pipeline of DEL on entrants, winners,
winners_json and prizes, SADD of the new prizes, and SET is_open with
`ex = duration` (no expiry when the duration is 0). With an empty prize
list the queued SADD carries no member, a wrong-arity error that aborts
the transaction at `pipeline.execute()`: the call raises and no key
changes; otherwise the transaction applies and the call returns OK. -/
def start_new_draw (s : Store) (prizes : List String) (duration : Nat) :
    Except Unit Unit × Store :=
  match prizes with
  | [] => (.error (), s)
  | _ :: _ =>
    (.ok (), { s with
      entrants := []
      winners := []
      winners_json := none
      prizes := sadd_many [] prizes
      is_open := true
      is_open_ex := if duration = 0 then none else some duration })

/-- `end_draw`: DEL is_open. -/
def end_draw (s : Store) : Store :=
  { s with is_open := false, is_open_ex := none }

/-- The SPOP loop of `draw_prizes`, run along the orders in which the two
sets are drained: returns (the recorded prize→winner pairs, the prizes
left in the set, the entrants left in the set). A prize popped when the
entrants run out is discarded without being returned to the set. -/
def draw_loop : List String → List String →
    List (String × String) × List String × List String
  | [], es => ([], [], es)
  | _ :: ps, [] => ([], ps, [])
  | p :: ps, e :: es =>
    let r := draw_loop ps es
    ((p, e) :: r.1, r.2.1, r.2.2)

/-- Redis HSET of one field: overwrite the field when present, else append. -/
def hset_field (h : List (String × String)) (k v : String) :
    List (String × String) :=
  if h.any (fun kv => kv.1 == k) then
    h.map (fun kv => if kv.1 == k then (k, v) else kv)
  else
    h ++ [(k, v)]

/-- Writing every field of a mapping into a hash, in mapping order. -/
def hmset_fields (h m : List (String × String)) : List (String × String) :=
  m.foldl (fun acc kv => hset_field acc kv.1 kv.2) h

/-- Redis HMSET as redis-py issues it: an empty mapping raises
DataError("'hmset' with 'mapping' of length 0") before anything is sent;
otherwise every field of the mapping is written into the hash. -/
def hmset (h m : List (String × String)) : Except Unit (List (String × String)) :=
  match m with
  | [] => .error ()
  | _ :: _ => .ok (hmset_fields h m)

/-- `draw_prizes`: UNLINK is_open, run the SPOP loop along the given pop
orders, then HMSET the recorded pairs into `winners`. When no pair was
recorded the HMSET raises redis-py's DataError, so the request aborts
with the sets as the loop left them and the entrants key not yet
unlinked; otherwise `entrants` is unlinked and the call returns OK.
Returns (outcome, store when the request ends). -/
def draw_prizes (s : Store) (prize_order entrant_order : List String) :
    Except Unit Unit × Store :=
  let r := draw_loop prize_order entrant_order
  let closed := { s with
    is_open := false
    is_open_ex := none
    prizes := r.2.1
    entrants := r.2.2 }
  match hmset s.winners r.1 with
  | .error e => (.error e, closed)
  | .ok w => (.ok (), { closed with winners := w, entrants := [] })

/-- The display-name choice of `get_winners`: the profile's `name` field
when it is truthy, else the `login` handle. -/
def display_name (p : Profile) : String :=
  match p.name with
  | some n => if n = "" then p.login else n
  | none => p.login

/-- The per-winner loop of `get_winners`: resolve each winner's profile
(through the cache, threading its writes) and build the record list.
Subscripting the result of a failed lookup raises an uncaught Python
TypeError, modelled as `Except.error`. -/
def winners_loop (t : Nat) (provider : String → Option Profile) :
    List (String × String) → Store → Except Unit (List WinnerRecord) × Store
  | [], st => (.ok [], st)
  | (prize, winner_id) :: rest, st =>
    let r := get_github_profile st t provider winner_id
    match r.1 with
    | none => (.error (), r.2.1)
    | some p =>
      match winners_loop t provider rest r.2.1 with
      | (.error e, st2) => (.error e, st2)
      | (.ok l, st2) =>
        (.ok ({ name := display_name p, prize := prize, image := p.avatar_url } :: l), st2)

/-- `get_winners`: return the cached `winners_json` when present; else read
the `winners` hash, returning None when it is absent; else build the
record list, cache it in `winners_json` and return it. -/
def get_winners (s : Store) (t : Nat) (provider : String → Option Profile) :
    Except Unit (Option (List WinnerRecord)) × Store :=
  match s.winners_json with
  | some cached => (.ok (some cached), s)
  | none =>
    match s.winners with
    | [] => (.ok none, s)
    | _ :: _ =>
      match winners_loop t provider s.winners s with
      | (.error e, st) => (.error e, st)
      | (.ok l, st) => (.ok (some l), { st with winners_json := some l })

/-- Stores reachable from the empty store by the four core operations;
`draw_prizes` may drain each set in any order. -/
inductive Reachable : Store → Prop
  | empty : Reachable Store.empty
  | start (s : Store) (prizes : List String) (duration : Nat) :
      Reachable s → Reachable (start_new_draw s prizes duration).2
  | enter (s : Store) (t : Nat) (provider : String → Option Profile)
      (github_id : String) : Reachable s →
      Reachable (enter_prize_draw s t provider github_id).2.1
  | close (s : Store) : Reachable s → Reachable (end_draw s)
  | draw (s : Store) (po eo : List String) : Reachable s →
      po.Perm s.prizes → eo.Perm s.entrants →
      Reachable (draw_prizes s po eo).2

/-- C2: for every combination of the four reads (DrawFlag existence,
WinnerMap existence, PrizeSet existence, EntrantSet cardinality),
`get_draw_state` returns exactly the state that the §4.1 precedence table
prescribes: NoDraw when flag, winners and prizes are all absent; the Open
states when the flag is present, split on entrant count; the Closed states
when flag and winners are absent, split on entrant count; Won otherwise. -/
theorem get_draw_state_matches_table (draw_open winners_exist prizes_exist : Bool)
    (num_entrants : Nat) :
    get_draw_state_of draw_open winners_exist prizes_exist num_entrants =
      spec_resolve draw_open winners_exist prizes_exist num_entrants := by
  cases draw_open <;> cases winners_exist <;> cases prizes_exist <;> rfl

/-- C6: when the DrawFlag is absent, `enter_prize_draw` fails with 403
DrawNotOpen, the store is unchanged (no profile-cache write, no EntrantSet
change), and the provider is never called. -/
theorem enter_prize_draw_closed (s : Store) (t : Nat)
    (provider : String → Option Profile) (github_id : String)
    (h : s.is_open = false) :
    enter_prize_draw s t provider github_id = (.http403_draw_not_open, s, false) := by
  simp [enter_prize_draw, h]

theorem enter_prize_draw_closed_witness :
    enter_prize_draw Store.empty 0 (fun _ => none) "Alice" =
      (.http403_draw_not_open, Store.empty, false) :=
  enter_prize_draw_closed Store.empty 0 (fun _ => none) "Alice" rfl

/-- C10: when both the cached winner view and the winners hash are absent,
`get_winners` returns None and performs no store write, so an empty result
is never cached. -/
theorem get_winners_empty_not_cached (s : Store) (t : Nat)
    (provider : String → Option Profile)
    (hjson : s.winners_json = none) (hw : s.winners = []) :
    get_winners s t provider = (.ok none, s) := by
  simp [get_winners, hjson, hw]

theorem get_winners_empty_not_cached_witness :
    get_winners Store.empty 0 (fun _ => none) = (.ok none, Store.empty) :=
  get_winners_empty_not_cached Store.empty 0 (fun _ => none) rfl rfl

/-- C8 fails on the code: with winners hash {"prize1": "someuser"}, no
cached profile and a provider that answers non-200, `get_winners`
subscripts the None returned by `get_github_profile` and raises an
uncaught TypeError (modelled as `Except.error`) instead of returning a
typed result. -/
theorem get_winners_raises_on_provider_failure :
    (get_winners { Store.empty with winners := [("prize1", "someuser")] } 0
        (fun _ => none)).1 = .error () := rfl

/-- C9 as stated fails on the code: with an empty prize list the queued
zero-member SADD aborts the whole MULTI/EXEC transaction, so nothing is
deleted and the previous draw's WinnerMap survives. -/
theorem start_new_draw_empty_prizes_counterexample :
    ¬ ((start_new_draw { Store.empty with winners := [("A", "x")] } [] 5).2.winners
        = []) := by
  simp [start_new_draw, Store.empty]

/-- C9 amended: for every prior store content and every NONEMPTY prize
list, `start_new_draw` succeeds and leaves WinnerMap, the cached winner
view and EntrantSet absent, PrizeSet holding exactly the given prizes,
and DrawFlag present with expiry equal to the duration (no expiry when
the duration is 0). -/
theorem start_new_draw_frame (s : Store) (prizes : List String) (duration : Nat)
    (hp : prizes ≠ []) :
    (start_new_draw s prizes duration).1 = .ok () ∧
    (start_new_draw s prizes duration).2.winners = [] ∧
    (start_new_draw s prizes duration).2.winners_json = none ∧
    (start_new_draw s prizes duration).2.entrants = [] ∧
    (∀ x, x ∈ (start_new_draw s prizes duration).2.prizes ↔ x ∈ prizes) ∧
    (start_new_draw s prizes duration).2.is_open = true ∧
    (start_new_draw s prizes duration).2.is_open_ex =
      (if duration = 0 then none else some duration) := by
  obtain ⟨p, ps, rfl⟩ : ∃ p ps, prizes = p :: ps := by
    cases prizes with
    | nil => exact absurd rfl hp
    | cons p ps => exact ⟨p, ps, rfl⟩
  refine ⟨rfl, rfl, rfl, rfl, ?_, rfl, rfl⟩
  intro x
  show x ∈ sadd_many [] (p :: ps) ↔ x ∈ p :: ps
  have mem_sadd : ∀ (acc : List String) (z y : String),
      y ∈ (sadd acc z).1 ↔ y ∈ acc ∨ y = z := by
    intro acc z y
    by_cases hz : z ∈ acc
    · simp only [sadd, if_pos hz]
      exact ⟨Or.inl, fun h => h.elim id (fun h2 => h2 ▸ hz)⟩
    · simp [sadd, hz, List.mem_append]
  have key : ∀ (xs acc : List String) (y : String),
      y ∈ sadd_many acc xs ↔ y ∈ acc ∨ y ∈ xs := by
    intro xs
    induction xs with
    | nil => intro acc y; simp [sadd_many]
    | cons z zs ih =>
      intro acc y
      have step : sadd_many acc (z :: zs) = sadd_many (sadd acc z).1 zs := rfl
      rw [step, ih, mem_sadd]
      simp only [List.mem_cons]
      tauto
  rw [key]
  simp

theorem start_new_draw_frame_witness :
    (start_new_draw Store.empty ["A"] 0).2.winners = [] :=
  (start_new_draw_frame Store.empty ["A"] 0 (by simp)).2.1

/-- `get_github_profile` writes at most the profile cache: every other
field of the store is unchanged. -/
theorem get_github_profile_frame (s : Store) (t : Nat)
    (provider : String → Option Profile) (github_id : String) :
    (get_github_profile s t provider github_id).2.1.is_open = s.is_open ∧
    (get_github_profile s t provider github_id).2.1.entrants = s.entrants ∧
    (get_github_profile s t provider github_id).2.1.winners = s.winners ∧
    (get_github_profile s t provider github_id).2.1.prizes = s.prizes ∧
    (get_github_profile s t provider github_id).2.1.winners_json = s.winners_json := by
  unfold get_github_profile
  cases redis_get_profile s t github_id
  · cases provider github_id
    · exact ⟨rfl, rfl, rfl, rfl, rfl⟩
    · exact ⟨rfl, rfl, rfl, rfl, rfl⟩
  · exact ⟨rfl, rfl, rfl, rfl, rfl⟩

/-- C7: on a cache miss, a provider success is returned and cached with
expiry exactly `t + 3600`, so a later call strictly inside the window hits
the cache and makes no provider call while a call at or after the expiry
calls the provider again; a provider failure returns None and leaves the
store untouched, so the next miss retries the provider. -/
theorem get_github_profile_cache_ttl (s : Store) (t : Nat)
    (provider : String → Option Profile) (github_id : String)
    (hmiss : redis_get_profile s t github_id = none) :
    (∀ p, provider github_id = some p →
      get_github_profile s t provider github_id =
        (some p, { s with profiles := (github_id, p, t + 3600) :: s.profiles }, true) ∧
      (∀ t2, t2 < t + 3600 →
        get_github_profile
            { s with profiles := (github_id, p, t + 3600) :: s.profiles }
            t2 provider github_id =
          (some p, { s with profiles := (github_id, p, t + 3600) :: s.profiles },
            false)) ∧
      (∀ t2, t + 3600 ≤ t2 →
        (get_github_profile
            { s with profiles := (github_id, p, t + 3600) :: s.profiles }
            t2 provider github_id).2.2 = true)) ∧
    (provider github_id = none →
      get_github_profile s t provider github_id = (none, s, true)) := by
  constructor
  · intro p hp
    refine ⟨by simp [get_github_profile, hmiss, hp], ?_, ?_⟩
    · intro t2 ht2
      simp [get_github_profile, redis_get_profile, List.lookup, ht2]
    · intro t2 ht2
      have hexp : ¬ t2 < t + 3600 := by omega
      simp [get_github_profile, redis_get_profile, List.lookup, hexp]
      cases provider github_id <;> simp
  · intro hp
    simp [get_github_profile, hmiss, hp]

theorem get_github_profile_cache_ttl_witness :
    get_github_profile Store.empty 0
        (fun _ => some { login := "alice", name := none, avatar_url := "u" })
        "alice" =
      (some { login := "alice", name := none, avatar_url := "u" },
        { Store.empty with profiles :=
            [("alice", { login := "alice", name := none, avatar_url := "u" }, 3600)] },
        true) := by
  have h := get_github_profile_cache_ttl Store.empty 0
      (fun _ => some { login := "alice", name := none, avatar_url := "u" })
      "alice" rfl
  exact (h.1 { login := "alice", name := none, avatar_url := "u" } rfl).1

/-- C5: with the draw open and the provider resolving the identity, the
first registration of a not-yet-entered identity succeeds, returns the
profile, and records the lowercased identity in EntrantSet; and for every
store in which the lowercased identity is already a member (the SADD delta
is 0), a registration of the same normalized identity — in any letter
case — fails with 400 AlreadyEntered. -/
theorem enter_prize_draw_dedup (s : Store) (t : Nat)
    (provider : String → Option Profile) (github_id : String) (p : Profile)
    (hopen : s.is_open = true)
    (hprof : (get_github_profile s t provider github_id.toLower).1 = some p)
    (hnew : github_id.toLower ∉ s.entrants) :
    (enter_prize_draw s t provider github_id).1 = .entered p ∧
    github_id.toLower ∈ (enter_prize_draw s t provider github_id).2.1.entrants ∧
    (∀ (s2 : Store) (t2 : Nat) (id2 : String) (p2 : Profile),
      s2.is_open = true →
      (get_github_profile s2 t2 provider id2.toLower).1 = some p2 →
      id2.toLower ∈ s2.entrants →
      (enter_prize_draw s2 t2 provider id2).1 = .http400_already_entered) := by
  have hent := (get_github_profile_frame s t provider github_id.toLower).2.1
  refine ⟨?_, ?_, ?_⟩
  · simp [enter_prize_draw, hopen, hprof, sadd, hent, hnew]
  · simp [enter_prize_draw, hopen, hprof, sadd, hent, hnew]
  · intro s2 t2 id2 p2 hopen2 hprof2 hmem2
    have hent2 := (get_github_profile_frame s2 t2 provider id2.toLower).2.1
    simp [enter_prize_draw, hopen2, hprof2, sadd, hent2, hmem2]

theorem enter_prize_draw_dedup_witness :
    (enter_prize_draw { Store.empty with is_open := true } 0
        (fun _ => some { login := "alice", name := none, avatar_url := "u" })
        "Alice").1 =
      .entered { login := "alice", name := none, avatar_url := "u" } := by
  have h := enter_prize_draw_dedup { Store.empty with is_open := true } 0
      (fun _ => some { login := "alice", name := none, avatar_url := "u" })
      "Alice" { login := "alice", name := none, avatar_url := "u" }
      rfl rfl (by simp [Store.empty])
  exact h.1

/-- `enter_prize_draw` never touches DrawFlag or the winners hash. -/
theorem enter_prize_draw_frame (s : Store) (t : Nat)
    (provider : String → Option Profile) (github_id : String) :
    (enter_prize_draw s t provider github_id).2.1.is_open = s.is_open ∧
    (enter_prize_draw s t provider github_id).2.1.winners = s.winners := by
  have hf := get_github_profile_frame s t provider github_id.toLower
  unfold enter_prize_draw
  split
  · exact ⟨rfl, rfl⟩
  · dsimp only
    split
    · exact ⟨hf.1, hf.2.2.1⟩
    · split
      · exact ⟨hf.1, hf.2.2.1⟩
      · exact ⟨hf.1, hf.2.2.1⟩

/-- `draw_prizes` always removes DrawFlag first, whether or not the later
HMSET raises. -/
theorem draw_prizes_is_open (s : Store) (po eo : List String) :
    (draw_prizes s po eo).2.is_open = false := by
  unfold draw_prizes
  dsimp only
  cases hmset s.winners (draw_loop po eo).1 <;> rfl

/-- C3: in every store reachable from the empty store by the four core
operations, DrawFlag and WinnerMap are never both present: an open draw
has an empty winners hash. -/
theorem reachable_open_winners_exclusive (s : Store) (h : Reachable s) :
    s.is_open = true → s.winners = [] := by
  induction h with
  | empty => intro _; rfl
  | start s2 prizes duration _ ih =>
    intro ho
    cases prizes with
    | nil => exact ih ho
    | cons p ps => rfl
  | enter s2 t provider github_id _ ih =>
    intro ho
    have hf := enter_prize_draw_frame s2 t provider github_id
    rw [hf.2]
    exact ih (hf.1 ▸ ho)
  | close s2 _ _ =>
    intro ho
    simp [end_draw] at ho
  | draw s2 po eo _ _ _ _ =>
    intro ho
    rw [draw_prizes_is_open] at ho
    cases ho

theorem reachable_open_winners_exclusive_witness :
    (start_new_draw Store.empty ["A", "B"] 0).2.winners = [] :=
  reachable_open_winners_exclusive (start_new_draw Store.empty ["A", "B"] 0).2
    (Reachable.start Store.empty ["A", "B"] 0 Reachable.empty) rfl

/-- The pairs recorded by the SPOP loop are the zip of the two pop orders. -/
theorem draw_loop_pairs (po eo : List String) :
    (draw_loop po eo).1 = po.zip eo := by
  induction po generalizing eo with
  | nil => rfl
  | cons p ps ih =>
    cases eo with
    | nil => rfl
    | cons e es => simp [draw_loop, ih]

/-- Writing a duplicate-free mapping that shares no field with the hash
appends the mapping. -/
theorem hmset_fields_disjoint_append (m : List (String × String)) :
    ∀ h : List (String × String),
    (∀ kv ∈ m, ∀ kv2 ∈ h, kv.1 ≠ kv2.1) → (m.map Prod.fst).Nodup →
    hmset_fields h m = h ++ m := by
  induction m with
  | nil => intro h _ _; simp [hmset_fields]
  | cons kv rest ih =>
    intro h hd hn
    obtain ⟨k, v⟩ := kv
    have hna : h.any (fun x => x.1 == k) = false := by
      rw [List.any_eq_false]
      intro x hx
      simpa using (hd (k, v) (by simp) x hx).symm
    have step : hmset_fields h ((k, v) :: rest) = hmset_fields (h ++ [(k, v)]) rest := by
      simp [hmset_fields, hset_field, hna]
    rw [step, ih (h ++ [(k, v)]) ?_ (List.nodup_cons.mp (by simpa using hn)).2,
      List.append_assoc, List.singleton_append]
    intro kv2 hkv2 kv3 hkv3
    rcases List.mem_append.mp hkv3 with h3 | h3
    · exact hd kv2 (List.mem_cons_of_mem _ hkv2) kv3 h3
    · have : kv3 = (k, v) := by simpa using h3
      subst this
      have hk : k ∉ rest.map Prod.fst := (List.nodup_cons.mp (by simpa using hn)).1
      intro he
      have he2 : kv2.1 = k := he
      exact hk (he2 ▸ List.mem_map_of_mem Prod.fst hkv2)

/-- The prize column of the recorded pairs is a sublist of the prize order. -/
theorem map_fst_zip_sublist (po eo : List String) :
    ((po.zip eo).map Prod.fst).Sublist po := by
  induction po generalizing eo with
  | nil => simp
  | cons p ps ih =>
    cases eo with
    | nil => simp
    | cons e es => simpa using (ih es).cons₂ p

/-- The winner column of the recorded pairs is a sublist of the entrant order. -/
theorem map_snd_zip_sublist (po eo : List String) :
    ((po.zip eo).map Prod.snd).Sublist eo := by
  induction po generalizing eo with
  | nil => simp
  | cons p ps ih =>
    cases eo with
    | nil => simp
    | cons e es => simpa using (ih es).cons₂ e

/-- C1: for every store with an empty winners hash and every order of
random pops, `draw_prizes` records an injective partial matching of size
min(|prizes|, |entrants|): every key was in PrizeSet, every value was in
EntrantSet, keys and values are pairwise distinct, and when there are at
least as many entrants as prizes the keys are exactly the prizes. On
prizes {"A","B"} and entrants {"x","y","z"} this gives a WinnerMap of
size 2 with both prizes as keys and two distinct winners. -/
theorem draw_prizes_injective_matching (s : Store) (po eo : List String)
    (hpo : po.Perm s.prizes) (heo : eo.Perm s.entrants)
    (hnp : s.prizes.Nodup) (hne : s.entrants.Nodup)
    (hw : s.winners = []) :
    (draw_prizes s po eo).2.winners.length = min s.prizes.length s.entrants.length ∧
    (∀ kv ∈ (draw_prizes s po eo).2.winners, kv.1 ∈ s.prizes ∧ kv.2 ∈ s.entrants) ∧
    ((draw_prizes s po eo).2.winners.map Prod.fst).Nodup ∧
    ((draw_prizes s po eo).2.winners.map Prod.snd).Nodup ∧
    (s.prizes.length ≤ s.entrants.length →
      ((draw_prizes s po eo).2.winners.map Prod.fst).Perm s.prizes) := by
  have hpon : po.Nodup := hpo.nodup_iff.mpr hnp
  have heon : eo.Nodup := heo.nodup_iff.mpr hne
  have hkeys : ((po.zip eo).map Prod.fst).Nodup :=
    hpon.sublist (map_fst_zip_sublist po eo)
  have hvals : ((po.zip eo).map Prod.snd).Nodup :=
    heon.sublist (map_snd_zip_sublist po eo)
  have hwin : (draw_prizes s po eo).2.winners = po.zip eo := by
    unfold draw_prizes
    dsimp only
    rw [draw_loop_pairs, hw]
    cases hzip : po.zip eo with
    | nil => rfl
    | cons a l =>
      show hmset_fields [] (a :: l) = a :: l
      have hap := hmset_fields_disjoint_append (a :: l) [] (by simp) (hzip ▸ hkeys)
      simpa using hap
  refine ⟨?_, ?_, ?_, ?_, ?_⟩
  · rw [hwin, List.length_zip, hpo.length_eq, heo.length_eq]
  · intro kv hkv
    rw [hwin] at hkv
    obtain ⟨a, b⟩ := kv
    have hab := List.of_mem_zip hkv
    exact ⟨hpo.subset hab.1, heo.subset hab.2⟩
  · rw [hwin]; exact hkeys
  · rw [hwin]; exact hvals
  · intro hle
    rw [hwin, List.map_fst_zip po eo (by rw [hpo.length_eq, heo.length_eq]; exact hle)]
    exact hpo

theorem draw_prizes_injective_matching_witness :
    (draw_prizes
        { Store.empty with prizes := ["A", "B"], entrants := ["x", "y", "z"] }
        ["B", "A"] ["y", "x", "z"]).2.winners.length = 2 := by
  have h := draw_prizes_injective_matching
      { Store.empty with prizes := ["A", "B"], entrants := ["x", "y", "z"] }
      ["B", "A"] ["y", "x", "z"] (by decide) (by decide) (by decide) (by decide) rfl
  exact h.1

/-- C4 fails on the code: with an empty PrizeSet and entrants {"x","y"},
the loop records no pair, so `redis.hmset` of the empty mapping raises
redis-py's DataError before the entrants unlink — the call does not
return successfully and the EntrantSet cleanup is skipped, both entrants
remaining in the store (here the entrant pop order is the only relevant
one, since the loop pops no entrant when the prizes are already gone). -/
theorem draw_prizes_raises_on_empty_prizes :
    draw_prizes { Store.empty with entrants := ["x", "y"] } [] ["x", "y"] =
      (.error (), { Store.empty with entrants := ["x", "y"] }) := rfl
